import Mathlib

/-!
# Verification of the solar-metrics-collector core (solar_collector.py)

A shallow embedding of the stateful core of `solar_collector.py`:

* the battery state-of-charge estimator (`SealedLeadAcidBatterySoC`),
* the per-cycle metric aggregator (`MetricsCollection`),
* the upload worker's failure/spill handling (`MetricUploader._run`),
* the scheduler's boundary arithmetic and upload phase (`status_loop`).

Python floats are modelled as rationals (`ℚ`); the persisted battery-state
file is modelled as an explicit state record threaded through each operation
(the `StateManager` context manager reads the record at entry and writes it
back at exit, so each operation is a function on the record).  Fallible
network interaction is modelled by an explicit outcome datatype.
-/

/-- Restrict a value to within the specified range (`clamp_value`,
solar_collector.py:233-235): `min_val if val < min_val else
max_val if val > max_val else val`. -/
def clamp_value (val min_val max_val : ℚ) : ℚ :=
  if val < min_val then min_val else if max_val < val then max_val else val

/-- Constructor configuration of `SealedLeadAcidBatterySoC`
(solar_collector.py:69-72): rated capacity and cell count. -/
structure SealedLeadAcidBatterySoC where
  total_capacity_ah : ℚ
  cell_count : ℚ
deriving DecidableEq, Repr

/-- The persisted battery-state record (battery.state file): the keys of
`SealedLeadAcidBatterySoC._defaults` (solar_collector.py:64-67). -/
structure BatteryState where
  remaining_capacity_ah : ℚ
  charging_correction_factor : ℚ
  discharging_correction_factor : ℚ
deriving DecidableEq, Repr

namespace SealedLeadAcidBatterySoC

/-- `_cell_float_voltage = 2.3` (solar_collector.py:60). -/
def cell_float_voltage : ℚ := 23/10

/-- `get_percent_charged` (solar_collector.py:77-80). -/
def get_percent_charged (cfg : SealedLeadAcidBatterySoC) (s : BatteryState) : ℚ :=
  clamp_value (s.remaining_capacity_ah / cfg.total_capacity_ah * 100) 0 100

/-- `set_remaining_capacity` (solar_collector.py:82-87): clamp the requested
capacity to `[0, total_capacity_ah]` and persist it. -/
def set_remaining_capacity (cfg : SealedLeadAcidBatterySoC) (capacity : ℚ)
    (s : BatteryState) : BatteryState :=
  { s with remaining_capacity_ah := clamp_value capacity 0 cfg.total_capacity_ah }

/-- `get_remaining_capacity` (solar_collector.py:89-91). -/
def get_remaining_capacity (cfg : SealedLeadAcidBatterySoC) (s : BatteryState) : ℚ :=
  clamp_value s.remaining_capacity_ah 0 cfg.total_capacity_ah

/-- `estimate_capacity_from_voltage` (solar_collector.py:93-107).  The
`temperature` argument is accepted and unused, exactly as in the source. -/
def estimate_capacity_from_voltage (cfg : SealedLeadAcidBatterySoC)
    (voltage : ℚ) (current : ℚ) (float_charging : Bool) (temperature : ℚ) : ℚ :=
  let c_rate := current / cfg.total_capacity_ah
  let cell_voltage := voltage / cfg.cell_count
  if float_charging = true ∧ 0 ≤ c_rate ∧ c_rate ≤ 1/100 ∧
      |cell_voltage - cell_float_voltage| ≤ 1/10 then
    cfg.total_capacity_ah
  else if float_charging = true ∧ 1/100 < c_rate ∧ c_rate ≤ 1/10 ∧
      |cell_voltage - cell_float_voltage| ≤ 1/10 then
    cfg.total_capacity_ah * (1 + 2/10 * (1/100 - c_rate))
  else
    0

/-- `update` (solar_collector.py:109-119): scale the amp-hour delta by the
applicable correction factor, add it to the persisted remaining capacity,
clamp to `[0, total_capacity_ah]`, persist. -/
def update (cfg : SealedLeadAcidBatterySoC) (amp_hours : ℚ)
    (s : BatteryState) : BatteryState :=
  let scaled := if 0 < amp_hours then amp_hours * s.charging_correction_factor
                else amp_hours * s.discharging_correction_factor
  { s with remaining_capacity_ah :=
      clamp_value (s.remaining_capacity_ah + scaled) 0 cfg.total_capacity_ah }

end SealedLeadAcidBatterySoC

/-- The charge-state forcing branch of `get_current_metrics`
(solar_collector.py:323-327): when the controller reports `Float` mode and
the tracked charge has drifted below 98 %, the voltage-based estimate is
written back through `set_remaining_capacity` with no guard on the sentinel
`0.0` return. -/
def force_charge_state (cfg : SealedLeadAcidBatterySoC) (pv_charging_mode : String)
    (battery_volts battery_amps : ℚ) (s : BatteryState) : BatteryState :=
  if pv_charging_mode = "Float" ∧ cfg.get_percent_charged s < 98 then
    cfg.set_remaining_capacity
      (cfg.estimate_capacity_from_voltage battery_volts battery_amps true 20) s
  else
    s

/-! ## MetricsCollection (solar_collector.py:122-153)

A sample value is a Python float (modelled as `ℚ`) or a string (charging
mode names, formatted timestamps). -/

/-- One metric value of a `SampleRecord`. -/
inductive MValue where
  | num (q : ℚ)
  | str (s : String)
deriving DecidableEq, Repr

/-- The `_metrics` dict of `MetricsCollection`: each observed key with its
ordered per-cycle history, keys in first-seen order. -/
abbrev Metrics := List (String × List MValue)

namespace MetricsCollection

/-- `_most_recent` (solar_collector.py:126). -/
def most_recent : List String := ["timestamp", "kwh_today", "kwh_total", "battery_charge"]

/-- `_most_common` (solar_collector.py:127). -/
def most_common : List String := ["pv_charging_mode"]

/-- One iteration of `add`'s loop (solar_collector.py:133-137): create the
key's history if absent, then append the value. -/
def addOne (m : Metrics) (key : String) (v : MValue) : Metrics :=
  if m.any (fun p => p.1 = key) then
    m.map (fun p => if p.1 = key then (p.1, p.2 ++ [v]) else p)
  else
    m ++ [(key, [v])]

/-- `add(new_metrics)` (solar_collector.py:133-137). -/
def add (m : Metrics) (new_metrics : List (String × MValue)) : Metrics :=
  new_metrics.foldl (fun acc kv => addOne acc kv.1 kv.2) m

/-- Multiplicity of a value in a history (the count `collections.Counter`
associates to it). -/
def countV (v : MValue) (l : List MValue) : Nat :=
  (l.filter (fun x => decide (x = v))).length

/-- Scan for an element of maximal multiplicity.  `Counter.most_common()[0][0]`
returns an element of maximal count; in Python 2 ties among distinct values
follow dict hash-iteration order, which this model cannot reproduce, so the
model resolves ties by first occurrence.  Theorems about `mode` rollups
therefore only rely on the returned element having maximal multiplicity, or
on inputs whose maximum is unique (where every tie order agrees). -/
def pickMax (l : List MValue) : MValue → List MValue → MValue
  | b, [] => b
  | b, v :: rest =>
    if countV b l < countV v l then pickMax l v rest else pickMax l b rest

/-- `collections.Counter(history).most_common()[0][0]` (solar_collector.py:146). -/
def mostCommonValue (l : List MValue) : MValue :=
  match l with
  | [] => MValue.num 0
  | v :: rest => pickMax l v rest

/-- Round-half-to-even to an integer, the rounding used by
`numpy.ndarray.round`. -/
def roundHalfEven (q : ℚ) : ℤ :=
  let f := ⌊q⌋
  if q - f < 1/2 then f
  else if 1/2 < q - f then f + 1
  else if f % 2 = 0 then f else f + 1

/-- `numpy.mean(...).round(2)` (solar_collector.py:149): arithmetic mean
rounded to 2 decimal places.  Defined on the numeric readings of a history
(`mean` keys only ever hold numbers; a string would make `numpy.mean` fail). -/
def meanRounded2 (l : List MValue) : ℚ :=
  let nums := l.map (fun v => match v with | .num q => q | .str _ => 0)
  (roundHalfEven (nums.sum / l.length * 100) : ℚ) / 100

/-- The rollup `aggregate` computes for one key from its history
(solar_collector.py:142-149). -/
def rollup (key : String) (hist : List MValue) : MValue :=
  if key ∈ most_recent then hist.getLastD (MValue.num 0)
  else if key ∈ most_common then mostCommonValue hist
  else MValue.num (meanRounded2 hist)

/-- `aggregate()` (solar_collector.py:140-150): one rolled-up entry per
observed key.  The method only reads `_metrics`; `aggregateCall` below gives
its state-passing form. -/
def aggregate (m : Metrics) : List (String × MValue) :=
  m.map (fun p => (p.1, rollup p.1 p.2))

/-- `aggregate()` as a method call on the collection state: the body reads
`self._metrics` and writes only the local `aggregated_stats` dict, so the
state component is returned as it was read. -/
def aggregateCall (m : Metrics) : Metrics × List (String × MValue) :=
  (m, aggregate m)

/-- `clear()` (solar_collector.py:152-153). -/
def clear (_m : Metrics) : Metrics := []

/-- The history `_metrics[key]`, `[]` when the key was never added. -/
def histOf (m : Metrics) (key : String) : List MValue :=
  ((m.find? (fun p => decide (p.1 = key))).map Prod.snd).getD []

/-- Lookup in an aggregated record. -/
def lookupA (r : List (String × MValue)) (key : String) : Option MValue :=
  (r.find? (fun p => decide (p.1 = key))).map Prod.snd

end MetricsCollection

/-! ## MetricUploader (solar_collector.py:156-193)

The worker body (`_run`) serializes the dequeued job once into `json_data`
(line 170) and then attempts the POST.  The network interaction is modelled
by an explicit outcome: either `requests.post` raised (connection error or
the 30-second timeout), or a response arrived with an HTTP status code and a
body that either fails to parse as JSON (`response.json()` raises
`ValueError`) or is an object that does or does not carry a top-level
`"error"` key.  `response.raise_for_status()` raises exactly for status
codes in `[400, 600)`. -/

/-- Result of parsing the response body (`response.json()`). -/
inductive BodyParse where
  | malformed
  | fields (hasErrorKey : Bool)
deriving DecidableEq, Repr

/-- Outcome of the `requests.post` call of one job. -/
inductive PostOutcome where
  | raised
  | ok (status : Nat) (body : BodyParse)
deriving DecidableEq, Repr

namespace MetricUploader

/-- Whether the `try` block of `_run` (solar_collector.py:173-178) reaches its
`except` handler: `requests.post` raised, `raise_for_status()` raised
(status in `[400, 600)`), `response.json()` raised (malformed body), or a
top-level `"error"` key was found and raised on. -/
def uploadFailed : PostOutcome → Bool
  | .raised => true
  | .ok status body =>
    if 400 ≤ status ∧ status < 600 then true
    else
      match body with
      | .malformed => true
      | .fields hasErrorKey => hasErrorKey

/-- Spill handling of one dequeued job (solar_collector.py:163-186):
`json_data` is the job's serialized outbound payload (line 170); on failure
it is appended to the spill file as one line, on success nothing is
written.  The spill file is the list of its lines. -/
def processJob (json_data : String) (outcome : PostOutcome)
    (spill : List String) : List String :=
  if uploadFailed outcome then spill ++ [json_data] else spill

/-- The worker loop over the queued jobs, each with its network outcome:
after each job, failed or not, the loop continues with the next one. -/
def runWorker : List (String × PostOutcome) → List String → List String
  | [], spill => spill
  | (json_data, outcome) :: rest, spill =>
    runWorker rest (processJob json_data outcome spill)

end MetricUploader

/-! ## Scheduler (`status_loop`, solar_collector.py:196-230) -/

/-- Python's float `%`: `a - b * ⌊a / b⌋` (sign of the divisor). -/
def pymod (a b : ℚ) : ℚ := a - b * ⌊a / b⌋

/-- `collection_interval_sec = 5.0` (solar_collector.py:28). -/
def collection_interval_sec : ℚ := 5

/-- `day_upload_interval_sec = 1.0 * 60` (solar_collector.py:29). -/
def day_upload_interval_sec : ℚ := 60

/-- `night_upload_interval_sec = 10.0 * 60` (solar_collector.py:30). -/
def night_upload_interval_sec : ℚ := 600

/-- `interval - time.time() % interval`, the delay-to-next-boundary formula
of solar_collector.py:224 and 227. -/
def next_delay (now interval : ℚ) : ℚ := interval - pymod now interval

/-- Observable actions of the scheduler's upload phase, in program order. -/
inductive SchedEvent where
  | evAggregate (a : List (String × MValue))
  | evEnqueue (a : List (String × MValue))
  | evClear
deriving DecidableEq

/-- The scheduler state of `status_loop`: the `next_upload_time` variable,
the `MetricsCollection` contents, and the uploader's queue of enqueued
aggregates. -/
structure SchedState where
  next_upload_time : ℚ
  metrics : Metrics
  queue : List (List (String × MValue))
deriving DecidableEq

/-- The state at entry of the loop: `next_upload_time = 0`, empty
collection, empty queue (solar_collector.py:201-204). -/
def initState : SchedState := ⟨0, [], []⟩

/-- The upload-boundary block of `status_loop` (solar_collector.py:217-225):
when `time.time() > next_upload_time`, enqueue the aggregate unless this is
the initial crossing (`next_upload_time = 0`), clear the collection either
way, and recompute the boundary as `time.time() + (interval - time.time() %
interval)`.  The tick's wall-clock reading is the parameter `now`. -/
def upload_phase (now interval : ℚ) (s : SchedState) : SchedState × List SchedEvent :=
  if s.next_upload_time < now then
    if 0 < s.next_upload_time then
      let a := MetricsCollection.aggregate s.metrics
      (⟨now + next_delay now interval, MetricsCollection.clear s.metrics, s.queue ++ [a]⟩,
        [.evAggregate a, .evEnqueue a, .evClear])
    else
      (⟨now + next_delay now interval, MetricsCollection.clear s.metrics, s.queue⟩,
        [.evClear])
  else
    (s, [])

/-- One tick of `status_loop` (solar_collector.py:206-230): add the tick's
sample to the collection (line 213), then run the upload-boundary block.
`interval` is the day/night-dependent upload interval chosen at the top of
the tick (line 211). -/
def tick (now interval : ℚ) (sample : List (String × MValue))
    (s : SchedState) : SchedState × List SchedEvent :=
  upload_phase now interval { s with metrics := MetricsCollection.add s.metrics sample }

/-- A three-tick cycle exercising one `mean` key, one `last` key and the
`mode` key with the spec's example histories `[1, 3, 2]` and
`["x", "y", "x"]`. -/
def exampleCycle : Metrics :=
  MetricsCollection.add
    (MetricsCollection.add
      (MetricsCollection.add []
        [("pv_volts", .num 1), ("kwh_today", .num 1), ("pv_charging_mode", .str "x")])
      [("pv_volts", .num 3), ("kwh_today", .num 3), ("pv_charging_mode", .str "y")])
    [("pv_volts", .num 2), ("kwh_today", .num 2), ("pv_charging_mode", .str "x")]

section ClampLemmas

theorem clamp_value_lower (val min_val max_val : ℚ) (h : min_val ≤ max_val) :
    min_val ≤ clamp_value val min_val max_val := by
  unfold clamp_value
  split
  · exact le_refl _
  · split
    · exact h
    · linarith [not_lt.mp (by assumption : ¬ val < min_val)]

theorem clamp_value_upper (val min_val max_val : ℚ) (h : min_val ≤ max_val) :
    clamp_value val min_val max_val ≤ max_val := by
  unfold clamp_value
  split
  · exact h
  · split
    · exact le_refl _
    · linarith [not_lt.mp (by assumption : ¬ max_val < val)]

end ClampLemmas

/-- Unfolding lemma: the capacity stored by `update`. -/
theorem update_remaining (cfg : SealedLeadAcidBatterySoC) (d : ℚ) (s : BatteryState) :
    (cfg.update d s).remaining_capacity_ah =
      clamp_value
        (s.remaining_capacity_ah +
          (if 0 < d then d * s.charging_correction_factor
           else d * s.discharging_correction_factor))
        0 cfg.total_capacity_ah := rfl

/-- Unfolding lemma: the capacity stored by `set_remaining_capacity`. -/
theorem set_remaining (cfg : SealedLeadAcidBatterySoC) (x : ℚ) (s : BatteryState) :
    (cfg.set_remaining_capacity x s).remaining_capacity_ah =
      clamp_value x 0 cfg.total_capacity_ah := rfl

/-- Unfolding lemma: the value returned by `get_remaining_capacity`. -/
theorem get_remaining (cfg : SealedLeadAcidBatterySoC) (s : BatteryState) :
    cfg.get_remaining_capacity s =
      clamp_value s.remaining_capacity_ah 0 cfg.total_capacity_ah := rfl

/-- C1: For every amp-hour delta `d` and every prior persisted battery state,
after `update(d)` the persisted `remaining_capacity_ah` satisfies
`0 ≤ remaining_capacity_ah ≤ total_capacity_ah`; `get_remaining_capacity`
returns a value in `[0, total_capacity_ah]` on any state; and the same bound
is preserved by `set_remaining_capacity x` for every `x`. -/
theorem C1_capacity_bounds (cfg : SealedLeadAcidBatterySoC) (d x : ℚ)
    (s : BatteryState) (hcap : 0 < cfg.total_capacity_ah) :
    (0 ≤ (cfg.update d s).remaining_capacity_ah ∧
      (cfg.update d s).remaining_capacity_ah ≤ cfg.total_capacity_ah) ∧
    (0 ≤ cfg.get_remaining_capacity s ∧
      cfg.get_remaining_capacity s ≤ cfg.total_capacity_ah) ∧
    (0 ≤ (cfg.set_remaining_capacity x s).remaining_capacity_ah ∧
      (cfg.set_remaining_capacity x s).remaining_capacity_ah ≤ cfg.total_capacity_ah) := by
  refine ⟨⟨?_, ?_⟩, ⟨?_, ?_⟩, ⟨?_, ?_⟩⟩
  · rw [update_remaining]; exact clamp_value_lower _ _ _ hcap.le
  · rw [update_remaining]; exact clamp_value_upper _ _ _ hcap.le
  · rw [get_remaining]; exact clamp_value_lower _ _ _ hcap.le
  · rw [get_remaining]; exact clamp_value_upper _ _ _ hcap.le
  · rw [set_remaining]; exact clamp_value_lower _ _ _ hcap.le
  · rw [set_remaining]; exact clamp_value_upper _ _ _ hcap.le

/-- Witness for C1 at the deployed configuration (`capacity_ah=125.0`,
`cell_count=24`, solar_collector.py:421), delta `3`, requested capacity
`200`, prior state `10 Ah`. -/
theorem C1_capacity_bounds_applied :
    (0 ≤ (SealedLeadAcidBatterySoC.update ⟨125, 24⟩ 3 ⟨10, 1, 1⟩).remaining_capacity_ah ∧
      (SealedLeadAcidBatterySoC.update ⟨125, 24⟩ 3 ⟨10, 1, 1⟩).remaining_capacity_ah ≤ 125) ∧
    (0 ≤ SealedLeadAcidBatterySoC.get_remaining_capacity ⟨125, 24⟩ ⟨10, 1, 1⟩ ∧
      SealedLeadAcidBatterySoC.get_remaining_capacity ⟨125, 24⟩ ⟨10, 1, 1⟩ ≤ 125) ∧
    (0 ≤ (SealedLeadAcidBatterySoC.set_remaining_capacity ⟨125, 24⟩ 200 ⟨10, 1, 1⟩).remaining_capacity_ah ∧
      (SealedLeadAcidBatterySoC.set_remaining_capacity ⟨125, 24⟩ 200 ⟨10, 1, 1⟩).remaining_capacity_ah ≤ 125) :=
  C1_capacity_bounds ⟨125, 24⟩ 3 200 ⟨10, 1, 1⟩ (by norm_num)

/-- C6: in `update(d)` the charging correction factor is applied exactly when
`d > 0` and the discharging factor exactly when `d < 0` (for `d = 0` neither
factor influences the result), and an applicable factor of `1.0` is the
identity transform: the stored capacity changes by exactly `d` up to
clamping. -/
theorem C6_correction_factor_application (cfg : SealedLeadAcidBatterySoC)
    (d : ℚ) (s : BatteryState) :
    (0 < d → (cfg.update d s).remaining_capacity_ah =
      clamp_value (s.remaining_capacity_ah + d * s.charging_correction_factor)
        0 cfg.total_capacity_ah) ∧
    (d < 0 → (cfg.update d s).remaining_capacity_ah =
      clamp_value (s.remaining_capacity_ah + d * s.discharging_correction_factor)
        0 cfg.total_capacity_ah) ∧
    (¬ 0 < d → ∀ c : ℚ,
      (cfg.update d { s with charging_correction_factor := c }).remaining_capacity_ah =
        (cfg.update d s).remaining_capacity_ah) ∧
    (¬ d < 0 → ∀ c : ℚ,
      (cfg.update d { s with discharging_correction_factor := c }).remaining_capacity_ah =
        (cfg.update d s).remaining_capacity_ah) ∧
    (0 < d → s.charging_correction_factor = 1 →
      (cfg.update d s).remaining_capacity_ah =
        clamp_value (s.remaining_capacity_ah + d) 0 cfg.total_capacity_ah) ∧
    (d < 0 → s.discharging_correction_factor = 1 →
      (cfg.update d s).remaining_capacity_ah =
        clamp_value (s.remaining_capacity_ah + d) 0 cfg.total_capacity_ah) := by
  simp only [SealedLeadAcidBatterySoC.update]
  refine ⟨fun h => ?_, fun h => ?_, fun h c => ?_, fun h c => ?_,
    fun h h1 => ?_, fun h h1 => ?_⟩
  · rw [if_pos h]
  · rw [if_neg (by linarith)]
  · rw [if_neg h, if_neg h]
  · rcases lt_or_le 0 d with hd | hd
    · rw [if_pos hd, if_pos hd]
    · have hd0 : d = 0 := le_antisymm hd (not_lt.mp h)
      subst hd0
      norm_num
  · rw [if_pos h, h1, mul_one]
  · rw [if_neg (by linarith), h1, mul_one]

/-- C3: the case analysis of `estimate_capacity_from_voltage` with
C-rate `= current / capacity_ah` and per-cell voltage `= voltage /
cell_count`: `capacity_ah` on the float/near-zero-current branch, the linear
correction on the `0.01 < C-rate ≤ 0.1` branch, and `0.0` in every other
case — in particular at C-rate `0.15` and whenever `float_charging` is
false. -/
theorem C3_estimate_capacity_cases (cfg : SealedLeadAcidBatterySoC)
    (V I T : ℚ) (fc : Bool) (hcap : 0 < cfg.total_capacity_ah) :
    (fc = true → 0 ≤ I / cfg.total_capacity_ah → I / cfg.total_capacity_ah ≤ 1/100 →
      |V / cfg.cell_count - SealedLeadAcidBatterySoC.cell_float_voltage| ≤ 1/10 →
      cfg.estimate_capacity_from_voltage V I fc T = cfg.total_capacity_ah) ∧
    (fc = true → 1/100 < I / cfg.total_capacity_ah → I / cfg.total_capacity_ah ≤ 1/10 →
      |V / cfg.cell_count - SealedLeadAcidBatterySoC.cell_float_voltage| ≤ 1/10 →
      cfg.estimate_capacity_from_voltage V I fc T =
        cfg.total_capacity_ah * (1 + 2/10 * (1/100 - I / cfg.total_capacity_ah))) ∧
    (I = 15/100 * cfg.total_capacity_ah →
      cfg.estimate_capacity_from_voltage V I fc T = 0) ∧
    (fc = false → cfg.estimate_capacity_from_voltage V I fc T = 0) ∧
    (¬ (fc = true ∧ 0 ≤ I / cfg.total_capacity_ah ∧ I / cfg.total_capacity_ah ≤ 1/100 ∧
        |V / cfg.cell_count - SealedLeadAcidBatterySoC.cell_float_voltage| ≤ 1/10) →
      ¬ (fc = true ∧ 1/100 < I / cfg.total_capacity_ah ∧ I / cfg.total_capacity_ah ≤ 1/10 ∧
        |V / cfg.cell_count - SealedLeadAcidBatterySoC.cell_float_voltage| ≤ 1/10) →
      cfg.estimate_capacity_from_voltage V I fc T = 0) := by
  simp only [SealedLeadAcidBatterySoC.estimate_capacity_from_voltage]
  refine ⟨fun h1 h2 h3 h4 => ?_, fun h1 h2 h3 h4 => ?_, fun hI => ?_,
    fun hfc => ?_, fun h1 h2 => ?_⟩
  · rw [if_pos ⟨h1, h2, h3, h4⟩]
  · rw [if_neg (by rintro ⟨-, -, hle, -⟩; linarith), if_pos ⟨h1, h2, h3, h4⟩]
  · have hc : I / cfg.total_capacity_ah = 15/100 := by
      rw [hI, mul_div_assoc, div_self hcap.ne', mul_one]
    rw [if_neg (by rintro ⟨-, -, hle, -⟩; rw [hc] at hle; norm_num at hle),
      if_neg (by rintro ⟨-, -, hle, -⟩; rw [hc] at hle; norm_num at hle)]
  · subst hfc
    rw [if_neg (by rintro ⟨h, -⟩; exact Bool.false_ne_true h),
      if_neg (by rintro ⟨h, -⟩; exact Bool.false_ne_true h)]
  · rw [if_neg h1, if_neg h2]

/-- Witness for C3 at the deployed configuration: `V = 55.2` (per-cell
voltage exactly `2.3`), `I = 1` (C-rate `0.008`), float charging: the
estimator returns the full capacity `125`. -/
theorem C3_estimate_capacity_applied :
    SealedLeadAcidBatterySoC.estimate_capacity_from_voltage ⟨125, 24⟩ (552/10) 1 true 20 = 125 :=
  (C3_estimate_capacity_cases ⟨125, 24⟩ (552/10) 1 20 true (by norm_num)).1 rfl
    (by norm_num) (by norm_num)
    (by rw [show (552:ℚ)/10/24 - SealedLeadAcidBatterySoC.cell_float_voltage = 0 by
          norm_num [SealedLeadAcidBatterySoC.cell_float_voltage]]
        norm_num)

/-- C2 (code bug evidence): at the deployed configuration, in `Float` mode
with tracked charge `80 % < 98 %`, terminal voltage `48 V` (per-cell `2.0 V`,
outside the `±0.1 V` float window) and zero current, the estimator returns
the sentinel `0.0`, and the call site of solar_collector.py:323-327 passes it
straight to `set_remaining_capacity`, wiping the persisted `100 Ah` to `0`. -/
theorem C2_sentinel_not_gated :
    SealedLeadAcidBatterySoC.estimate_capacity_from_voltage ⟨125, 24⟩ 48 0 true 20 = 0 ∧
    (force_charge_state ⟨125, 24⟩ "Float" 48 0 ⟨100, 1, 1⟩).remaining_capacity_ah = 0 := by
  have hest : SealedLeadAcidBatterySoC.estimate_capacity_from_voltage ⟨125, 24⟩ 48 0 true 20 = 0 := by
    simp only [SealedLeadAcidBatterySoC.estimate_capacity_from_voltage,
      SealedLeadAcidBatterySoC.cell_float_voltage]
    norm_num [abs_le]
  refine ⟨hest, ?_⟩
  simp only [force_charge_state, SealedLeadAcidBatterySoC.get_percent_charged, clamp_value]
  norm_num [hest, SealedLeadAcidBatterySoC.set_remaining_capacity, clamp_value]

namespace MetricsCollection

theorem pickMax_mem (l : List MValue) :
    ∀ (rest : List MValue) (b : MValue), pickMax l b rest ∈ b :: rest := by
  intro rest
  induction rest with
  | nil => intro b; exact List.mem_cons_self _ _
  | cons v vs ih =>
    intro b
    by_cases hcmp : countV b l < countV v l
    · rw [pickMax, if_pos hcmp]
      exact List.mem_cons_of_mem _ (ih v)
    · rw [pickMax, if_neg hcmp]
      rcases List.mem_cons.mp (ih b) with h | h
      · rw [h]; exact List.mem_cons_self _ _
      · exact List.mem_cons_of_mem _ (List.mem_cons_of_mem _ h)

theorem pickMax_count_le (l : List MValue) :
    ∀ (rest : List MValue) (b x : MValue), x ∈ b :: rest →
      countV x l ≤ countV (pickMax l b rest) l := by
  intro rest
  induction rest with
  | nil =>
    intro b x hx
    rcases List.mem_cons.mp hx with h | h
    · rw [h, pickMax]
    · exact absurd h (List.not_mem_nil _)
  | cons v vs ih =>
    intro b x hx
    by_cases hcmp : countV b l < countV v l
    · rw [pickMax, if_pos hcmp]
      rcases List.mem_cons.mp hx with h | hx'
      · rw [h]; exact le_trans hcmp.le (ih v v (List.mem_cons_self _ _))
      · rcases List.mem_cons.mp hx' with h | hx''
        · rw [h]; exact ih v v (List.mem_cons_self _ _)
        · exact ih v x (List.mem_cons_of_mem _ hx'')
    · rw [pickMax, if_neg hcmp]
      rcases List.mem_cons.mp hx with h | hx'
      · rw [h]; exact ih b b (List.mem_cons_self _ _)
      · rcases List.mem_cons.mp hx' with h | hx''
        · rw [h]; exact le_trans (not_lt.mp hcmp) (ih b b (List.mem_cons_self _ _))
        · exact ih b x (List.mem_cons_of_mem _ hx'')

/-- The modelled `Counter(...).most_common()[0][0]` returns an element of the
history of maximal multiplicity. -/
theorem mostCommonValue_spec (l : List MValue) (hl : l ≠ []) :
    mostCommonValue l ∈ l ∧ ∀ x ∈ l, countV x l ≤ countV (mostCommonValue l) l := by
  cases l with
  | nil => exact absurd rfl hl
  | cons v vs =>
    exact ⟨pickMax_mem (v :: vs) vs v, fun x hx => pickMax_count_le (v :: vs) vs v x hx⟩

theorem find?_map_keyed (m : Metrics) (k : String) (f : String → List MValue → MValue) :
    (m.map (fun p => (p.1, f p.1 p.2))).find? (fun p => decide (p.1 = k)) =
      (m.find? (fun p => decide (p.1 = k))).map (fun p => (p.1, f p.1 p.2)) := by
  induction m with
  | nil => rfl
  | cons p rest ih =>
    by_cases h : p.1 = k
    · simp [List.find?_cons, h]
    · simp [List.find?_cons, h, ih]

theorem lookupA_aggregate (m : Metrics) (k : String) :
    lookupA (aggregate m) k =
      (m.find? (fun p => decide (p.1 = k))).map (fun p => rollup p.1 p.2) := by
  unfold lookupA aggregate
  rw [find?_map_keyed]
  cases m.find? (fun p => decide (p.1 = k)) <;> rfl

theorem find?_key_eq (m : Metrics) (k : String) (pr : String × List MValue)
    (h : m.find? (fun q => decide (q.1 = k)) = some pr) : pr.1 = k := by
  have h2 := List.find?_some h
  exact of_decide_eq_true h2

theorem roundHalfEven_int (n : ℤ) : roundHalfEven (n : ℚ) = n := by
  unfold roundHalfEven
  rw [Int.floor_intCast]
  norm_num

theorem meanRounded2_example :
    meanRounded2 [.num 1, .num 3, .num 2] = 2 := by
  simp only [meanRounded2, List.map, List.sum_cons, List.sum_nil, List.length]
  norm_num
  rw [show (200 : ℚ) = ((200 : ℤ) : ℚ) by norm_num, roundHalfEven_int]
  norm_num

end MetricsCollection

/-- C4: for every per-cycle history built by `add`, `aggregate` rolls each
observed key up by the fixed metric→policy table: the last appended value on
`_most_recent` keys, a value of maximal frequency on `_most_common` keys,
and the 2-decimal-rounded arithmetic mean on every other key; on the example
cycle, `[1, 3, 2]` aggregates to `2.0` under `mean` and `2` under `last`,
and `["x", "y", "x"]` to `"x"` under `mode`. -/
theorem C4_aggregate_policies :
    (∀ (m : Metrics) (k : String) (pr : String × List MValue),
      m.find? (fun q => decide (q.1 = k)) = some pr →
      (k ∈ MetricsCollection.most_recent →
        MetricsCollection.lookupA (MetricsCollection.aggregate m) k =
          some (pr.2.getLastD (MValue.num 0))) ∧
      (k ∈ MetricsCollection.most_common → pr.2 ≠ [] →
        ∃ v, MetricsCollection.lookupA (MetricsCollection.aggregate m) k = some v ∧
          v ∈ pr.2 ∧
          ∀ w ∈ pr.2, MetricsCollection.countV w pr.2 ≤ MetricsCollection.countV v pr.2) ∧
      (k ∉ MetricsCollection.most_recent → k ∉ MetricsCollection.most_common →
        MetricsCollection.lookupA (MetricsCollection.aggregate m) k =
          some (MValue.num (MetricsCollection.meanRounded2 pr.2)))) ∧
    MetricsCollection.histOf exampleCycle "pv_volts" = [.num 1, .num 3, .num 2] ∧
    MetricsCollection.lookupA (MetricsCollection.aggregate exampleCycle) "pv_volts" =
      some (.num 2) ∧
    MetricsCollection.histOf exampleCycle "kwh_today" = [.num 1, .num 3, .num 2] ∧
    MetricsCollection.lookupA (MetricsCollection.aggregate exampleCycle) "kwh_today" =
      some (.num 2) ∧
    MetricsCollection.histOf exampleCycle "pv_charging_mode" = [.str "x", .str "y", .str "x"] ∧
    MetricsCollection.lookupA (MetricsCollection.aggregate exampleCycle) "pv_charging_mode" =
      some (.str "x") := by
  refine ⟨?_, rfl, ?_, rfl, rfl, rfl, rfl⟩
  · intro m k pr hpr
    have hk : pr.1 = k := MetricsCollection.find?_key_eq m k pr hpr
    refine ⟨fun hmr => ?_, fun hmc hne => ?_, fun h1 h2 => ?_⟩
    · rw [MetricsCollection.lookupA_aggregate, hpr, Option.map_some']
      simp only [MetricsCollection.rollup, hk]
      rw [if_pos hmr]
    · have hknmr : k ∉ MetricsCollection.most_recent := by
        simp only [MetricsCollection.most_common, List.mem_singleton] at hmc
        subst hmc
        decide
      refine ⟨MetricsCollection.mostCommonValue pr.2, ?_,
        (MetricsCollection.mostCommonValue_spec pr.2 hne).1,
        (MetricsCollection.mostCommonValue_spec pr.2 hne).2⟩
      rw [MetricsCollection.lookupA_aggregate, hpr, Option.map_some']
      simp only [MetricsCollection.rollup, hk]
      rw [if_neg hknmr, if_pos hmc]
    · rw [MetricsCollection.lookupA_aggregate, hpr, Option.map_some']
      simp only [MetricsCollection.rollup, hk]
      rw [if_neg h1, if_neg h2]
  · have h : MetricsCollection.lookupA (MetricsCollection.aggregate exampleCycle) "pv_volts" =
        some (.num (MetricsCollection.meanRounded2 [.num 1, .num 3, .num 2])) := rfl
    rw [h, MetricsCollection.meanRounded2_example]

/-- C8: `aggregate()` is a pure read: the method-call form returns the
per-key histories exactly as it found them, so two consecutive calls with no
intervening `add` or `clear` return equal results. -/
theorem C8_aggregate_pure (m : Metrics) :
    (MetricsCollection.aggregateCall m).1 = m ∧
    (∀ k, MetricsCollection.histOf (MetricsCollection.aggregateCall m).1 k =
      MetricsCollection.histOf m k) ∧
    (MetricsCollection.aggregateCall ((MetricsCollection.aggregateCall m).1)).2 =
      (MetricsCollection.aggregateCall m).2 :=
  ⟨rfl, fun _ => rfl, rfl⟩

/-! ### Scheduler boundary arithmetic -/

theorem pymod_nonneg (a b : ℚ) (hb : 0 < b) : 0 ≤ pymod a b := by
  have h1 : ((⌊a / b⌋ : ℤ) : ℚ) ≤ a / b := Int.floor_le _
  have h2 : b * ((⌊a / b⌋ : ℤ) : ℚ) ≤ b * (a / b) :=
    mul_le_mul_of_nonneg_left h1 hb.le
  have h3 : b * (a / b) = a := by field_simp
  unfold pymod
  linarith

theorem pymod_lt (a b : ℚ) (hb : 0 < b) : pymod a b < b := by
  have h1 : a / b < ((⌊a / b⌋ : ℤ) : ℚ) + 1 := Int.lt_floor_add_one _
  have h2 : b * (a / b) < b * (((⌊a / b⌋ : ℤ) : ℚ) + 1) := (mul_lt_mul_left hb).mpr h1
  have h3 : b * (a / b) = a := by field_simp
  have h4 : b * (((⌊a / b⌋ : ℤ) : ℚ) + 1) = b * ((⌊a / b⌋ : ℤ) : ℚ) + b := by ring
  unfold pymod
  linarith

/-- C9: for a current time `T > 0` and an interval `I > 0`, the quantity the
scheduler adds to `time.time()` is exactly `I − (T mod I)` where `pymod` is
genuine modular reduction (`0 ≤ T mod I < I` and `T ≡ pymod T I` modulo
`I`), the resulting boundary `T + (I − (T mod I))` is the next exact
multiple of `I`, and every computed delay — the upload delay and the
5-second collection sleep of line 227 — is non-negative. -/
theorem C9_boundary_arithmetic (T I : ℚ) (hT : 0 < T) (hI : 0 < I) :
    0 ≤ pymod T I ∧ pymod T I < I ∧
    (∃ k : ℤ, T = I * k + pymod T I) ∧
    next_delay T I = I - pymod T I ∧
    T + next_delay T I = I * (⌊T / I⌋ + 1) ∧
    0 < next_delay T I ∧ next_delay T I ≤ I ∧
    0 ≤ next_delay T collection_interval_sec ∧
    (upload_phase T I initState).1.next_upload_time = T + (I - pymod T I) := by
  have hm0 := pymod_nonneg T I hI
  have hm1 := pymod_lt T I hI
  have hc0 : (0:ℚ) < collection_interval_sec := by norm_num [collection_interval_sec]
  refine ⟨hm0, hm1, ⟨⌊T / I⌋, by unfold pymod; ring⟩, rfl, ?_, ?_, ?_, ?_, ?_⟩
  · unfold next_delay pymod
    ring
  · unfold next_delay
    linarith
  · unfold next_delay
    linarith
  · have := pymod_lt T collection_interval_sec hc0
    unfold next_delay
    linarith
  · unfold upload_phase
    rw [if_pos (show initState.next_upload_time < T from hT), if_neg (by norm_num [initState])]
    rfl

/-- Witness for C9 at `T = 7`, `I = 3`. -/
theorem C9_boundary_arithmetic_applied :
    0 ≤ pymod 7 3 ∧ pymod 7 3 < 3 ∧
    (∃ k : ℤ, (7:ℚ) = 3 * k + pymod 7 3) ∧
    next_delay 7 3 = 3 - pymod 7 3 ∧
    (7:ℚ) + next_delay 7 3 = 3 * (⌊(7:ℚ) / 3⌋ + 1) ∧
    0 < next_delay 7 3 ∧ next_delay 7 3 ≤ 3 ∧
    0 ≤ next_delay 7 collection_interval_sec ∧
    (upload_phase 7 3 initState).1.next_upload_time = 7 + (3 - pymod 7 3) :=
  C9_boundary_arithmetic 7 3 (by norm_num) (by norm_num)

/-- C10: in `status_loop`, the very first upload-boundary crossing after
startup (`next_upload_time` still `0`, its initial value) enqueues nothing
and only clears and re-anchors the boundary; every subsequent crossing
(`next_upload_time > 0`) emits exactly `aggregate`, then `enqueue` of that
aggregate, then `clear`, in that order, appends the aggregate to the upload
queue, empties the collection, and only then recomputes the boundary from
the current interval; and a crossing at positive wall-clock time always
leaves `next_upload_time` positive, so only the startup crossing is
enqueue-free. -/
theorem C10_first_crossing_skips_upload (now I : ℚ)
    (sample : List (String × MValue)) (s : SchedState) :
    initState.next_upload_time = 0 ∧
    (s.next_upload_time = 0 → 0 < now →
      (∀ a, SchedEvent.evEnqueue a ∉ (tick now I sample s).2) ∧
      (tick now I sample s).1.queue = s.queue ∧
      (tick now I sample s).1.metrics = [] ∧
      (tick now I sample s).1.next_upload_time = now + next_delay now I) ∧
    (0 < s.next_upload_time → s.next_upload_time < now →
      (tick now I sample s).2 =
        [.evAggregate (MetricsCollection.aggregate (MetricsCollection.add s.metrics sample)),
         .evEnqueue (MetricsCollection.aggregate (MetricsCollection.add s.metrics sample)),
         .evClear] ∧
      (tick now I sample s).1.queue =
        s.queue ++ [MetricsCollection.aggregate (MetricsCollection.add s.metrics sample)] ∧
      (tick now I sample s).1.metrics = [] ∧
      (tick now I sample s).1.next_upload_time = now + next_delay now I) ∧
    (0 < I → 0 < now → s.next_upload_time < now →
      0 < (tick now I sample s).1.next_upload_time) := by
  refine ⟨rfl, fun h0 hnow => ?_, fun hpos hcross => ?_, fun hI hnow hcross => ?_⟩
  · have hcross : s.next_upload_time < now := h0 ▸ hnow
    unfold tick upload_phase
    rw [if_pos hcross, if_neg (by rw [h0]; exact lt_irrefl 0)]
    refine ⟨fun a => ?_, rfl, rfl, rfl⟩
    simp
  · unfold tick upload_phase
    rw [if_pos hcross, if_pos hpos]
    exact ⟨rfl, rfl, rfl, rfl⟩
  · have hd : 0 < next_delay now I := by
      have := pymod_lt now I hI
      unfold next_delay
      linarith
    unfold tick upload_phase
    rw [if_pos hcross]
    by_cases hp : 0 < s.next_upload_time
    · rw [if_pos hp]
      show 0 < now + next_delay now I
      linarith
    · rw [if_neg hp]
      show 0 < now + next_delay now I
      linarith

/-! ### Upload pipeline -/

/-- C5 counterexample: `requests.Response.raise_for_status` raises only for
status codes in `[400, 600)`, so a final response with a 3xx status (e.g.
`300 Multiple Choices` carrying a well-formed JSON body with no `"error"`
key, which `requests.post` returns as-is when there is no `Location` header
to follow) reaches the success path: the status is not 2xx, yet zero lines
are appended to the spill file — the claim's "non-2xx status ⇒ exactly one
appended line" fails. -/
theorem C5_non2xx_counterexample :
    ¬ (200 ≤ 300 ∧ 300 < 300) ∧
    MetricUploader.uploadFailed (.ok 300 (.fields false)) = false ∧
    MetricUploader.processJob "payload" (.ok 300 (.fields false)) [] = [] := by
  refine ⟨by norm_num, ?_, ?_⟩
  · rfl
  · rfl

/-- C5 (amended): a dequeued job's upload fails exactly when `requests.post`
raises (network error or 30 s timeout), the HTTP status is in `[400, 600)`
(`raise_for_status`), the response body is malformed, or the body carries a
top-level `"error"` key; on every such failure exactly one line equal to the
job's outbound JSON payload is appended to the spill file and the worker
continues with the next queued job, with no retry; on any other outcome —
2xx as well as a 1xx/3xx response with a parseable, error-free body — zero
lines are appended. -/
theorem C5_spill_exactly_on_failure (json_data : String) (outcome : PostOutcome)
    (spill : List String) (rest : List (String × PostOutcome)) :
    (outcome = .raised →
      MetricUploader.processJob json_data outcome spill = spill ++ [json_data]) ∧
    (∀ status body, outcome = .ok status body → 400 ≤ status → status < 600 →
      MetricUploader.processJob json_data outcome spill = spill ++ [json_data]) ∧
    (∀ status, outcome = .ok status .malformed →
      MetricUploader.processJob json_data outcome spill = spill ++ [json_data]) ∧
    (∀ status, outcome = .ok status (.fields true) →
      MetricUploader.processJob json_data outcome spill = spill ++ [json_data]) ∧
    (∀ status, outcome = .ok status (.fields false) → ¬ (400 ≤ status ∧ status < 600) →
      MetricUploader.processJob json_data outcome spill = spill) ∧
    (MetricUploader.processJob json_data outcome spill).length =
      spill.length + (if MetricUploader.uploadFailed outcome = true then 1 else 0) ∧
    MetricUploader.runWorker ((json_data, outcome) :: rest) spill =
      MetricUploader.runWorker rest (MetricUploader.processJob json_data outcome spill) := by
  refine ⟨fun h => ?_, fun status body h h4 h6 => ?_, fun status h => ?_,
    fun status h => ?_, fun status h hs => ?_, ?_, rfl⟩
  · subst h
    rfl
  · subst h
    have hf : MetricUploader.uploadFailed (.ok status body) = true := by
      simp only [MetricUploader.uploadFailed]
      rw [if_pos ⟨h4, h6⟩]
    simp [MetricUploader.processJob, hf]
  · subst h
    have hf : MetricUploader.uploadFailed (.ok status .malformed) = true := by
      simp only [MetricUploader.uploadFailed]
      by_cases hs : 400 ≤ status ∧ status < 600
      · rw [if_pos hs]
      · rw [if_neg hs]
    simp [MetricUploader.processJob, hf]
  · subst h
    have hf : MetricUploader.uploadFailed (.ok status (.fields true)) = true := by
      simp only [MetricUploader.uploadFailed]
      by_cases hs : 400 ≤ status ∧ status < 600
      · rw [if_pos hs]
      · rw [if_neg hs]
    simp [MetricUploader.processJob, hf]
  · subst h
    have hf : MetricUploader.uploadFailed (.ok status (.fields false)) = false := by
      simp only [MetricUploader.uploadFailed]
      rw [if_neg hs]
    simp [MetricUploader.processJob, hf]
  · by_cases hf : MetricUploader.uploadFailed outcome = true
    · simp [MetricUploader.processJob, hf]
    · simp [MetricUploader.processJob, hf]
